import Mathlib

/-!
# Verification of the image-optimization service

A shallow embedding of the transform-and-cache-fill core of the
`image-optimization` repository, together with the application-side URL
utilities `getOptimizedImageUrl` / `getContextualImageUrl` shipped in
`AUDIOSTORY_INTEGRATION.md`.

The Lambda image-processing function itself is not part of the source tree
(the tree holds the CDK entry point and the deployment/integration
documentation), so the pipeline components (validator, transformation
engine, cache writer, response composer, orchestrator) are modelled from
the specification, as marked on each definition.  The URL utilities are
embedded directly from the TypeScript in `AUDIOSTORY_INTEGRATION.md`.
-/

namespace ImageOpt

/-! ## Formats -/

/-- Concrete image formats an output can have (spec §3, §6). -/
inductive ImgFormat
  | jpeg
  | webp
  | avif
  | png
deriving DecidableEq

/-- Request-level format parameter: the concrete formats plus `auto`
(spec §3, §6: `format` ∈ {auto, jpeg, webp, avif, png}). -/
inductive ReqFormat
  | auto
  | jpeg
  | webp
  | avif
  | png
deriving DecidableEq

/-- Name of a request format as it appears in a URL parameter. -/
def ReqFormat.name : ReqFormat → String
  | .auto => "auto"
  | .jpeg => "jpeg"
  | .webp => "webp"
  | .avif => "avif"
  | .png => "png"

/-- Name of a concrete image format. -/
def ImgFormat.name : ImgFormat → String
  | .jpeg => "jpeg"
  | .webp => "webp"
  | .avif => "avif"
  | .png => "png"

/-- The concrete format requested by a non-`auto` request format. -/
def ReqFormat.toImg : ReqFormat → Option ImgFormat
  | .auto => none
  | .jpeg => some .jpeg
  | .webp => some .webp
  | .avif => some .avif
  | .png => some .png

/-! ## String helpers

Executable models of the JavaScript string operations used by the
integration utilities (`String.prototype.includes`, suffix tests, and the
`pathname` of the WHATWG `URL` constructor). -/

/-- `listContains hay needle` is true when `needle` occurs as a contiguous
run inside `hay` (model of JS `String.prototype.includes`). -/
def listContains (hay needle : List Char) : Bool :=
  match hay with
  | [] => needle.isEmpty
  | _ :: t => needle.isPrefixOf hay || listContains t needle

/-- Substring containment on strings. -/
def strContains (s sub : String) : Bool :=
  listContains s.toList sub.toList

/-- Case-insensitive suffix test on strings. -/
def strEndsWithCI (s suffix' : String) : Bool :=
  (suffix'.toList.map Char.toLower).isSuffixOf (s.toList.map Char.toLower)

/-- Test of the regex `\.(jpg|jpeg|png|webp|gif)$` with the `i` flag used in
`getOptimizedImageUrl`: the path ends in an image extension,
case-insensitively. -/
def hasImageExtension (path : String) : Bool :=
  strEndsWithCI path ".jpg" || strEndsWithCI path ".jpeg" ||
  strEndsWithCI path ".png" || strEndsWithCI path ".webp" ||
  strEndsWithCI path ".gif"

/-- String prefix test (model of JS `String.prototype.startsWith`). -/
def strStartsWith (s pre : String) : Bool :=
  pre.toList.isPrefixOf s.toList

/-- Splits `hay` at the first occurrence of `needle`: `some (pre, post)`
with `hay = pre ++ needle ++ post`, or `none` when `needle` does not
occur. -/
def splitAtSub (hay needle : List Char) : Option (List Char × List Char) :=
  match hay with
  | [] => if needle.isEmpty then some ([], []) else none
  | c :: t =>
    if needle.isPrefixOf hay then some ([], hay.drop needle.length)
    else
      match splitAtSub t needle with
      | some (pre, post) => some (c :: pre, post)
      | none => none

/-- Model of `new URL(s).pathname` for the absolute URLs handled by the
integration code: for `scheme://authority/path…` it is the part from the
first `/` after the authority, cut at `?` or `#`, and `"/"` when the
authority is not followed by a path.  A string without `://` (or with an
empty scheme) makes the `URL` constructor throw, modelled by `none`. -/
def urlPathname (s : String) : Option String :=
  match splitAtSub s.toList "://".toList with
  | none => none
  | some (scheme, rest) =>
    if scheme.isEmpty then none
    else
      match rest.dropWhile (fun c => c != '/') with
      | [] => some "/"
      | l => some (String.mk (l.takeWhile (fun c => c != '?' && c != '#')))

/-! ## Integration utilities (embedded from `AUDIOSTORY_INTEGRATION.md`) -/

/-- `IMAGE_SIZES` preset table from `AUDIOSTORY_INTEGRATION.md`. -/
structure ImageSizes where
  THUMBNAIL : Nat
  SMALL : Nat
  MEDIUM : Nat
  LARGE : Nat
  XLARGE : Nat
  PLAYER : Nat

/-- The `IMAGE_SIZES` constant from `AUDIOSTORY_INTEGRATION.md`. -/
def IMAGE_SIZES : ImageSizes :=
  { THUMBNAIL := 200, SMALL := 300, MEDIUM := 500,
    LARGE := 800, XLARGE := 1000, PLAYER := 400 }

/-- Display contexts accepted by `getContextualImageUrl`. -/
inductive DisplayContext
  | thumbnail
  | card
  | header
  | player
  | small
  | medium
  | large
deriving DecidableEq

/-- The `sizeMap` lookup table inside `getContextualImageUrl`. -/
def sizeMap : DisplayContext → Nat
  | .thumbnail => IMAGE_SIZES.THUMBNAIL
  | .small => IMAGE_SIZES.SMALL
  | .card => IMAGE_SIZES.MEDIUM
  | .medium => IMAGE_SIZES.MEDIUM
  | .player => IMAGE_SIZES.PLAYER
  | .header => IMAGE_SIZES.LARGE
  | .large => IMAGE_SIZES.XLARGE

/-- The `URLSearchParams` built by `getOptimizedImageUrl`: `format` is set
first, `width` only when the JS value `width` is truthy (a number other
than `0`; `undefined` is falsy), then `quality`.  Insertion order is
preserved, as `URLSearchParams` does. -/
def buildParams (width : Option Nat) (quality : Nat) (format : ReqFormat) :
    List (String × String) :=
  [("format", format.name)] ++
    (match width with
     | some w => if w ≠ 0 then [("width", toString w)] else []
     | none => []) ++
    [("quality", toString quality)]

/-- `URLSearchParams.toString()` for the simple key/value pairs used here
(no characters needing percent-encoding). -/
def serializeParams (ps : List (String × String)) : String :=
  String.intercalate "&" (ps.map fun p => p.1 ++ "=" ++ p.2)

/-- Result of a JS function that may throw: `thrown` models an uncaught
exception (the `URL` constructor throwing on a non-URL string). -/
inductive JsResult (α : Type)
  | ret (v : α)
  | thrown
deriving DecidableEq

/-- `getOptimizedImageUrl` from `AUDIOSTORY_INTEGRATION.md` (Phase 1).
`imageUrl : Option String` models `string | null | undefined` (`none` is
`null`/`undefined`); the JS guard `if (!imageUrl) return null` is also
taken by the empty string, which is falsy.  `width?: number` is
`Option Nat`; the TS defaults are `quality = 85`, `format = 'auto'`. -/
def getOptimizedImageUrl (imageUrl : Option String) (width : Option Nat)
    (quality : Nat) (format : ReqFormat) : JsResult (Option String) :=
  match imageUrl with
  | none => .ret none
  | some s =>
    if s = "" then .ret none
    else if strStartsWith s "/" then .ret (some s)
    else if !strContains s "media.dirtyvocal.com" then .ret (some s)
    else
      match urlPathname s with
      | none => .thrown
      | some path =>
        if !strContains path "/images/" && !hasImageExtension path then
          .ret (some s)
        else
          .ret (some ("https://images.dirtyvocal.com" ++ path ++ "?" ++
            serializeParams (buildParams width quality format)))

/-- `getContextualImageUrl` from `AUDIOSTORY_INTEGRATION.md`:
`const width = customWidth || sizeMap[context]` (so `0` and `undefined`
are both falsy and fall back to the context default), then
`getOptimizedImageUrl(imageUrl, width)` with the TS defaults. -/
def getContextualImageUrl (imageUrl : Option String)
    (context : DisplayContext) (customWidth : Option Nat) :
    JsResult (Option String) :=
  let width :=
    match customWidth with
    | some w => if w ≠ 0 then w else sizeMap context
    | none => sizeMap context
  getOptimizedImageUrl imageUrl (some width) 85 ReqFormat.auto

/-! ## Data model of the transform core

The Lambda image-processing function is not part of the source tree, so
the following components are modelled from the specification (§3–§7). -/

/-- Modelled from the spec (§3): a typed transform request produced by the
Request Validator. -/
structure TransformRequest where
  objectKey : String
  width : Option Nat
  height : Option Nat
  format : ReqFormat
  quality : Option Nat
  acceptCapabilities : List ImgFormat
deriving DecidableEq

/-- Modelled from the spec (§3): the fetched original object. -/
structure OriginalImage where
  bytes : List Nat
  declaredContentType : String
deriving DecidableEq

/-- Byte length of an original (spec §3: `byteLength`). -/
def OriginalImage.byteLength (o : OriginalImage) : Nat := o.bytes.length

/-- Modelled from the spec (§3): the Transformation Engine's result. -/
structure TransformedImage where
  bytes : List Nat
  outputFormat : ImgFormat
  byteLength : Nat
  cacheKey : String
deriving DecidableEq

/-- Modelled from the spec (§4.3): errors of the Transformation Engine. -/
inductive TransformError
  | decodeError
  | unsupportedFormat
  | sizeLimit
deriving DecidableEq

/-- Modelled from the spec (§7): the error taxonomy of the core. -/
inductive ErrKind
  | validation
  | notFound
  | payloadTooLarge
  | decodeError
  | unsupportedFormat
  | timeout
  | storeFetch
  | internal
deriving DecidableEq

/-- Modelled from the spec (§7): default externally visible status per
error kind. -/
def statusOf : ErrKind → Nat
  | .validation => 400
  | .notFound => 404
  | .payloadTooLarge => 413
  | .decodeError => 422
  | .unsupportedFormat => 422
  | .timeout => 504
  | .storeFetch => 502
  | .internal => 500

/-- Modelled from the spec (§6): configuration surface consumed by the
core — maximum accepted original byte size, whether persisted caching is
enabled, the retention duration in days, and the `max-age` seconds used in
the response cache directive. -/
structure Config where
  maxImageSize : Nat
  storeTransformed : Bool
  expirationDays : Nat
  cacheMaxAgeSeconds : Nat
deriving DecidableEq

/-! ## Codec model

The spec (§1) places the image codec outside the core ("it orchestrates
one").  We model it with a toy reversible container: a decodable byte
sequence is `tag :: w :: h :: pixels` with `pixels.length = w * h`. -/

/-- Container tag of a concrete format. -/
def ImgFormat.tag : ImgFormat → Nat
  | .jpeg => 0
  | .webp => 1
  | .avif => 2
  | .png => 3

/-- Format denoted by a container tag. -/
def tagFormat : Nat → Option ImgFormat
  | 0 => some .jpeg
  | 1 => some .webp
  | 2 => some .avif
  | 3 => some .png
  | _ => none

/-- A decoded raster image. -/
structure DecodedImage where
  width : Nat
  height : Nat
  pixels : List Nat
deriving DecidableEq

/-- Modelled from the spec (§4.3 step 1): decoding the original bytes; a
malformed byte sequence yields `none` (DecodeError), never a crash. -/
def decode (bytes : List Nat) : Option (ImgFormat × DecodedImage) :=
  match bytes with
  | t :: w :: h :: px =>
    match tagFormat t with
    | some f => if px.length = w * h then some (f, ⟨w, h, px⟩) else none
    | none => none
  | _ => none

/-- Modelled from the spec (§4.3 step 5): encoding at a quality into the
resolved output format.  Quality is modelled as a lossy per-pixel
attenuation so that it affects the output bytes, as a real encoder's
quality does. -/
def encode (f : ImgFormat) (quality : Nat) (img : DecodedImage) : List Nat :=
  f.tag :: img.width :: img.height :: img.pixels.map (fun p => p * quality / 100)

/-- Modelled from the spec (§4.3 step 4): a total resampling resize
(nearest-neighbour) valid for both upscale and downscale. -/
def resizeImage (img : DecodedImage) (tw th : Nat) : DecodedImage :=
  { width := tw
    height := th
    pixels :=
      ((List.range th).map fun y =>
        (List.range tw).map fun x =>
          img.pixels.getD ((y * img.height / th) * img.width + x * img.width / tw) 0).flatten }

/-! ## Transformation Engine (modelled from spec §4.3) -/

/-- Modelled from the spec (§9): pure content negotiation — the most
compact format supported by the capabilities in preference order
AVIF > WEBP > original format of the source. -/
def choosePreferredFormat (capabilities : List ImgFormat) (sourceFormat : ImgFormat) :
    ImgFormat :=
  if capabilities.contains ImgFormat.avif then ImgFormat.avif
  else if capabilities.contains ImgFormat.webp then ImgFormat.webp
  else sourceFormat

/-- Modelled from the spec (§4.3 step 2): resolve the output format —
negotiate on `auto`, otherwise use the requested format verbatim. -/
def resolveFormat (rf : ReqFormat) (capabilities : List ImgFormat)
    (sourceFormat : ImgFormat) : ImgFormat :=
  match rf with
  | .auto => choosePreferredFormat capabilities sourceFormat
  | .jpeg => .jpeg
  | .webp => .webp
  | .avif => .avif
  | .png => .png

/-- Division rounded to the nearest integer (ties upward):
`roundNearest a b = round (a / b)` for natural `a`, positive `b`. -/
def roundNearest (a b : Nat) : Nat := (2 * a + b) / (2 * b)

/-- Modelled from the spec (§4.3 step 3): the unset dimension obtained by
scaling the source aspect ratio, rounded to the nearest pixel, minimum 1.
`scaledDim g num den = max 1 (round (g * num / den))`. -/
def scaledDim (given num den : Nat) : Nat :=
  max 1 (roundNearest (given * num) den)

/-- Modelled from the spec (§4.3 step 3): target dimensions — both given:
used as-is (independent axes); one given: the other from the source's
aspect ratio; none given: native dimensions. -/
def targetDims (srcW srcH : Nat) : Option Nat → Option Nat → Nat × Nat
  | some w, some h => (w, h)
  | some w, none => (w, scaledDim w srcH srcW)
  | none, some h => (scaledDim h srcW srcH, h)
  | none, none => (srcW, srcH)

/-- Modelled from the spec (§4.3 step 5 and §3): per-format default
quality when the request omits `quality`.  The spec leaves the concrete
values to the codec; any fixed table satisfies it. -/
def defaultQuality : ImgFormat → Nat
  | .jpeg => 80
  | .webp => 80
  | .avif => 60
  | .png => 100

/-- Printed form of an optional dimension inside a cache key. -/
def optNatStr : Option Nat → String
  | some n => toString n
  | none => ""

/-- Modelled from the spec (§4.3 step 6): the deterministic cache key
computed from `(objectKey, width, height, resolvedFormat, quality)`. -/
def makeCacheKey (objectKey : String) (width height : Option Nat)
    (resolvedFormat : ImgFormat) (quality : Nat) : String :=
  objectKey ++ "/format=" ++ resolvedFormat.name ++
    ",width=" ++ optNatStr width ++ ",height=" ++ optNatStr height ++
    ",quality=" ++ toString quality

/-- Modelled from the spec (§4.3): the Transformation Engine — decode,
resolve the output format, compute target dimensions, resize, encode, and
package the result with its cache key.  A pure function of
`(original, request)`. -/
def transform (original : OriginalImage) (request : TransformRequest) :
    Except TransformError TransformedImage :=
  match decode original.bytes with
  | none => .error .decodeError
  | some (sourceFormat, img) =>
    let outFmt := resolveFormat request.format request.acceptCapabilities sourceFormat
    let dims := targetDims img.width img.height request.width request.height
    let resized := resizeImage img dims.1 dims.2
    let q := request.quality.getD (defaultQuality outFmt)
    let outBytes := encode outFmt q resized
    .ok { bytes := outBytes
          outputFormat := outFmt
          byteLength := outBytes.length
          cacheKey := makeCacheKey request.objectKey request.width request.height outFmt q }

/-! ## Request Validator (modelled from spec §4.1) -/

/-- Modelled from the spec (§4.1): a ValidationError names the offending
field. -/
inductive ValidationError
  | badWidth
  | badHeight
  | badQuality
  | badFormat
deriving DecidableEq

/-- Strict decimal parser: `some n` exactly when the string is a nonempty
run of digits (the validator's notion of "is an integer"). -/
def parseNat (s : String) : Option Nat :=
  if s.isEmpty then none
  else if s.toList.all Char.isDigit then
    some (s.toList.foldl (fun a c => a * 10 + (c.toNat - 48)) 0)
  else none

/-- A dimension parameter value is valid when absent, or a decimal integer
in `[1, 9999]` (spec §4.1). -/
def validDim (v : Option String) : Bool :=
  match v with
  | none => true
  | some s =>
    match parseNat s with
    | some n => 1 ≤ n && n ≤ 9999
    | none => false

/-- A quality parameter value is valid when absent, or a decimal integer
in `[1, 100]` (spec §4.1). -/
def validQuality (v : Option String) : Bool :=
  match v with
  | none => true
  | some s =>
    match parseNat s with
    | some n => 1 ≤ n && n ≤ 100
    | none => false

/-- Case-insensitive reading of a format parameter value. -/
def parseFormat (s : String) : Option ReqFormat :=
  if s.toLower = "auto" then some .auto
  else if s.toLower = "jpeg" then some .jpeg
  else if s.toLower = "webp" then some .webp
  else if s.toLower = "avif" then some .avif
  else if s.toLower = "png" then some .png
  else none

/-- A format parameter value is valid when absent or one of the enumerated
values, case-insensitively (spec §4.1). -/
def validFormat (v : Option String) : Bool :=
  match v with
  | none => true
  | some s => (parseFormat s).isSome

/-- Modelled from the spec (§4.1): `validate(rawParameters)` — a pure,
total bounds check over the raw query parameters.  Unknown parameters are
ignored; `format` defaults to `auto`; any violated bound yields a
`ValidationError` naming the offending field.  The object key and the
capability hint arrive from the request path and headers. -/
def validate (objectKey : String) (capabilities : List ImgFormat)
    (raw : List (String × String)) : Except ValidationError TransformRequest :=
  let w := raw.lookup "width"
  let h := raw.lookup "height"
  let q := raw.lookup "quality"
  let f := raw.lookup "format"
  if !validDim w then .error .badWidth
  else if !validDim h then .error .badHeight
  else if !validQuality q then .error .badQuality
  else if !validFormat f then .error .badFormat
  else
    .ok { objectKey := objectKey
          width := w.bind parseNat
          height := h.bind parseNat
          format := ((f.map parseFormat).getD none).getD .auto
          quality := q.bind parseNat
          acceptCapabilities := capabilities }

/-! ## Origin Store Client and Cache Writer (modelled from spec §4.2, §4.4) -/

/-- Modelled from the spec (§4.2, §6): the durable store — original
objects by key, transformed objects under their cache key, and a flag
making `putTransformed` fail (a `StoreError` on write). -/
structure Store where
  originals : List (String × List Nat)
  transformedCache : List (String × List Nat)
  putFails : Bool
deriving DecidableEq

/-- Modelled from the spec (§4.2): `fetchOriginal(key)`. -/
def fetchOriginal (st : Store) (key : String) : Option (List Nat) :=
  st.originals.lookup key

/-- Modelled from the spec (§4.2): `putTransformed(cacheKey, bytes, …)` —
a last-write-wins write into the transformed tier, or a `StoreError`. -/
def putTransformed (st : Store) (cacheKey : String) (bytes : List Nat) :
    Except Unit Store :=
  if st.putFails then .error ()
  else .ok { st with transformedCache := (cacheKey, bytes) :: st.transformedCache }

/-- Modelled from the spec (§4.4): the Cache Writer — a no-op when
persistent caching is disabled; otherwise a best-effort
`putTransformed` whose failure is logged and swallowed.  It returns a
store, never an error. -/
def maybeStore (transformed : TransformedImage) (cfg : Config) (st : Store) : Store :=
  if cfg.storeTransformed then
    match putTransformed st transformed.cacheKey transformed.bytes with
    | .ok st' => st'
    | .error _ => st
  else st

/-! ## Response Composer and Request Orchestrator (modelled from spec §4.5) -/

/-- MIME type of a concrete format. -/
def mimeType : ImgFormat → String
  | .jpeg => "image/jpeg"
  | .webp => "image/webp"
  | .avif => "image/avif"
  | .png => "image/png"

/-- Modelled from the spec (§4.5): the content hash behind the entity
tag.  The hash function itself is external; modelled as a deterministic
fold over the bytes. -/
def contentHash (bytes : List Nat) : Nat :=
  bytes.foldl (fun acc b => (acc * 31 + b) % 2 ^ 32) 5381

/-- A successful outward response. -/
structure ResponseEnvelope where
  status : Nat
  headers : List (String × String)
  body : List Nat
deriving DecidableEq

/-- Modelled from the spec (§4.5, §6): `compose(transformed, config)` —
content type of the resolved format, `Cache-Control` with the configured
`max-age`, the diagnostic header `x-aws-image-optimization: v1.0`
(literal value documented in the repository README), an entity tag from
the content hash, and `Vary: Accept` exactly when the request used
`format = auto`. -/
def compose (t : TransformedImage) (request : TransformRequest) (cfg : Config) :
    ResponseEnvelope :=
  { status := 200
    headers :=
      [("content-type", mimeType t.outputFormat),
       ("cache-control", "public, max-age=" ++ toString cfg.cacheMaxAgeSeconds),
       ("x-aws-image-optimization", "v1.0"),
       ("etag", toString (contentHash t.bytes))] ++
      (if request.format = ReqFormat.auto then [("vary", "accept")] else [])
    body := t.bytes }

/-- Outcome of a request: `Responded(success)` or `Responded(error)`
(spec §4.5 state machine). -/
inductive Response
  | success (envelope : ResponseEnvelope)
  | failure (kind : ErrKind) (status : Nat)
deriving DecidableEq

/-- Error kind of a Transformation Engine failure (spec §7). -/
def errKindOf : TransformError → ErrKind
  | .decodeError => .decodeError
  | .unsupportedFormat => .unsupportedFormat
  | .sizeLimit => .payloadTooLarge

/-- Observable pipeline events, used to state "before any decode" /
"no cache write attempted" properties. -/
inductive Event
  | originFetch
  | decodeStart
  | cacheWrite
deriving DecidableEq

/-- Modelled from the spec (§2, §4.5, §5): the Request Orchestrator's
miss-handling flow after validation — fetch the original, enforce the
size bound before any decode, transform, best-effort cache write, compose
the response.  Returns the response, the resulting store state, and the
trace of events. -/
def runPipeline (cfg : Config) (st : Store) (request : TransformRequest) :
    Response × Store × List Event :=
  match fetchOriginal st request.objectKey with
  | none => (.failure .notFound (statusOf .notFound), st, [Event.originFetch])
  | some bytes =>
    if bytes.length > cfg.maxImageSize then
      (.failure .payloadTooLarge (statusOf .payloadTooLarge), st, [Event.originFetch])
    else
      match transform ⟨bytes, ""⟩ request with
      | .error e => (.failure (errKindOf e) (statusOf (errKindOf e)), st,
          [Event.originFetch, Event.decodeStart])
      | .ok t =>
        let st' := maybeStore t cfg st
        (.success (compose t request cfg), st',
          [Event.originFetch, Event.decodeStart] ++
            (if cfg.storeTransformed then [Event.cacheWrite] else []))

/-- Modelled from the spec (§4.5): the full flow from raw parameters —
a validation failure transitions directly to `Responded(error)` with
status 400, before any I/O (empty event trace, store untouched). -/
def handleRaw (cfg : Config) (st : Store) (objectKey : String)
    (capabilities : List ImgFormat) (raw : List (String × String)) :
    Response × Store × List Event :=
  match validate objectKey capabilities raw with
  | .error _ => (.failure .validation (statusOf .validation), st, [])
  | .ok request => runPipeline cfg st request

/-- Decidable equality of `Except` results, for evaluating the model on
concrete inputs. -/
instance {e a : Type} [DecidableEq e] [DecidableEq a] : DecidableEq (Except e a) := fun x y =>
  match x, y with
  | .ok v, .ok w =>
    if h : v = w then isTrue (by rw [h]) else isFalse (fun hh => h (Except.ok.inj hh))
  | .error v, .error w =>
    if h : v = w then isTrue (by rw [h]) else isFalse (fun hh => h (Except.error.inj hh))
  | .ok _, .error _ => isFalse (fun hh => Except.noConfusion hh)
  | .error _, .ok _ => isFalse (fun hh => Except.noConfusion hh)

/-! ## Concrete fixtures

Small concrete instances used to instantiate the theorems below on
explicit inputs. -/

/-- A configuration with persistent caching enabled. -/
def cfgEx : Config := ⟨100, true, 90, 31622400⟩

/-- A configuration with persistent caching disabled. -/
def cfgOffEx : Config := ⟨100, false, 90, 31622400⟩

/-- A configuration whose size bound is below the sample original. -/
def cfgSmallEx : Config := ⟨2, true, 90, 31622400⟩

/-- A store holding one decodable original (a 1×1 JPEG) under key `k`. -/
def stEx : Store := ⟨[("k", [0, 1, 1, 50])], [], false⟩

/-- A request for key `k`: `format = auto` with AVIF capability,
`quality = 85`, no explicit dimensions. -/
def reqEx : TransformRequest := ⟨"k", none, none, ReqFormat.auto, some 85, [ImgFormat.avif]⟩

/-- The original stored under `k` in `stEx`. -/
def origEx : OriginalImage := ⟨[0, 1, 1, 50], ""⟩

/-- The transform of `origEx` under `reqEx`. -/
def tEx : TransformedImage :=
  ⟨[2, 1, 1, 42], ImgFormat.avif, 4, "k/format=avif,width=,height=,quality=85"⟩

/-- A 2×1 JPEG original. -/
def origWideEx : OriginalImage := ⟨[0, 2, 1, 10, 20], ""⟩

/-- An explicit-format request (`jpeg`, `width = 2`) with no
capabilities. -/
def reqJ1Ex : TransformRequest := ⟨"k", some 2, none, ReqFormat.jpeg, some 50, []⟩

/-- The same request tuple as `reqJ1Ex` with different (irrelevant)
capabilities. -/
def reqJ2Ex : TransformRequest := ⟨"k", some 2, none, ReqFormat.jpeg, some 50, [ImgFormat.avif]⟩

/-- The transform of `origWideEx` under `reqJ1Ex` (and `reqJ2Ex`). -/
def tJpegEx : TransformedImage :=
  ⟨[0, 2, 1, 5, 10], ImgFormat.jpeg, 5, "k/format=jpeg,width=2,height=,quality=50"⟩



/-! ## Claim-level predicates for the validator

The conditions of the validation claim, stated as the spec states them:
a parameter present but not an integer in the stated range, or a format
parameter not among the enumerated values case-insensitively. -/

/-- A dimension parameter is present and not an integer in `[1, 9999]`. -/
def dimViolation (v : Option String) : Prop :=
  ∃ s, v = some s ∧ ¬ ∃ n, parseNat s = some n ∧ 1 ≤ n ∧ n ≤ 9999

/-- The quality parameter is present and not an integer in `[1, 100]`. -/
def qualityViolation (v : Option String) : Prop :=
  ∃ s, v = some s ∧ ¬ ∃ n, parseNat s = some n ∧ 1 ≤ n ∧ n ≤ 100

/-- The format parameter is present and not one of
`auto`/`jpeg`/`webp`/`avif`/`png`, compared case-insensitively. -/
def formatViolation (v : Option String) : Prop :=
  ∃ s, v = some s ∧ parseFormat s = none

/-! ## Helper lemmas -/

/-- The nearest-integer division with minimum 1 is within one multiple of
the divisor of the exact value: `max 1 (round (a / b))` differs from
`a / b` by at most one. -/
theorem scaledDim_bounds (g num den : Nat) (hden : 0 < den) :
    1 ≤ scaledDim g num den ∧
    scaledDim g num den * den ≤ g * num + den ∧
    g * num ≤ scaledDim g num den * den + den := by
  unfold scaledDim roundNearest
  obtain ⟨m, hm⟩ : ∃ m, (2 * (g * num) + den) / (2 * den) = m := ⟨_, rfl⟩
  have key := Nat.div_add_mod (2 * (g * num) + den) (2 * den)
  have hr : (2 * (g * num) + den) % (2 * den) < 2 * den := Nat.mod_lt _ (by omega)
  rw [hm] at key ⊢
  rcases m with _ | k
  · simp only [Nat.max_eq_left (by omega : 0 ≤ 1)]
    omega
  · rw [Nat.max_eq_right (by omega : 1 ≤ k + 1)]
    have hprod : 2 * den * (k + 1) = 2 * ((k + 1) * den) := by ring
    rw [hprod] at key
    refine ⟨by omega, ?_, ?_⟩ <;> omega

/-! ## Claim C1 — target dimensions -/

/-- C1: the Transformation Engine computes target dimensions as the spec
states: both `width` and `height` given — used as-is as independent axes;
exactly one given — the other is the source aspect ratio scaled to an
integer, rounded to the nearest pixel with a minimum of 1, hence within
±1 pixel of the ideal scaling (`t * src ≤ given * other + src` and
conversely); neither given — the native dimensions are kept. -/
theorem C1_target_dimensions (srcW srcH w h : Nat) (hW : 0 < srcW) (hH : 0 < srcH) :
    targetDims srcW srcH (some w) (some h) = (w, h) ∧
    targetDims srcW srcH none none = (srcW, srcH) ∧
    (targetDims srcW srcH (some w) none).1 = w ∧
    1 ≤ (targetDims srcW srcH (some w) none).2 ∧
    (targetDims srcW srcH (some w) none).2 * srcW ≤ w * srcH + srcW ∧
    w * srcH ≤ (targetDims srcW srcH (some w) none).2 * srcW + srcW ∧
    (targetDims srcW srcH none (some h)).2 = h ∧
    1 ≤ (targetDims srcW srcH none (some h)).1 ∧
    (targetDims srcW srcH none (some h)).1 * srcH ≤ h * srcW + srcH ∧
    h * srcW ≤ (targetDims srcW srcH none (some h)).1 * srcH + srcH := by
  obtain ⟨hw1, hw2, hw3⟩ := scaledDim_bounds w srcH srcW hW
  obtain ⟨hh1, hh2, hh3⟩ := scaledDim_bounds h srcW srcH hH
  exact ⟨rfl, rfl, rfl, hw1, hw2, hw3, rfl, hh1, hh2, hh3⟩

/-- Instantiation of C1 on a 2000×1000 source with only `width = 500`
given (and on the both-given and neither-given cases). -/
theorem C1_target_dimensions_witness :
    0 < 2000 ∧ 0 < 1000 ∧
    (targetDims 2000 1000 (some 500) (some 300) = (500, 300) ∧
     targetDims 2000 1000 none none = (2000, 1000) ∧
     (targetDims 2000 1000 (some 500) none).1 = 500 ∧
     1 ≤ (targetDims 2000 1000 (some 500) none).2 ∧
     (targetDims 2000 1000 (some 500) none).2 * 2000 ≤ 500 * 1000 + 2000 ∧
     500 * 1000 ≤ (targetDims 2000 1000 (some 500) none).2 * 2000 + 2000 ∧
     (targetDims 2000 1000 none (some 300)).2 = 300 ∧
     1 ≤ (targetDims 2000 1000 none (some 300)).1 ∧
     (targetDims 2000 1000 none (some 300)).1 * 1000 ≤ 300 * 2000 + 1000 ∧
     300 * 2000 ≤ (targetDims 2000 1000 none (some 300)).1 * 1000 + 1000) :=
  ⟨by decide, by decide,
   C1_target_dimensions 2000 1000 500 300 (by decide) (by decide)⟩

/-! ## Claim C2 — format negotiation -/

/-- C2: with `format = auto` the resolved output format is the most
compact capability-supported format in preference order
AVIF > WEBP > source format, computed by the pure function
`choosePreferredFormat` of the capabilities and source format alone;
with any other `format` the resolved output is exactly the requested
format. -/
theorem C2_format_negotiation (caps : List ImgFormat) (src : ImgFormat) (rf : ReqFormat) :
    resolveFormat ReqFormat.auto caps src = choosePreferredFormat caps src ∧
    (caps.contains ImgFormat.avif = true →
      choosePreferredFormat caps src = ImgFormat.avif) ∧
    (caps.contains ImgFormat.avif = false → caps.contains ImgFormat.webp = true →
      choosePreferredFormat caps src = ImgFormat.webp) ∧
    (caps.contains ImgFormat.avif = false → caps.contains ImgFormat.webp = false →
      choosePreferredFormat caps src = src) ∧
    (∀ f, rf.toImg = some f → resolveFormat rf caps src = f) := by
  refine ⟨rfl, ?_, ?_, ?_, ?_⟩
  · intro ha; unfold choosePreferredFormat; rw [ha]; simp
  · intro ha hw; unfold choosePreferredFormat; rw [ha, hw]; simp
  · intro ha hw; unfold choosePreferredFormat; rw [ha, hw]; simp
  · intro f hf; cases rf <;> simp_all [ReqFormat.toImg, resolveFormat]

/-- Instantiation of C2: AVIF wins when supported; WEBP when AVIF is not;
the source format when neither is; a non-`auto` request is verbatim. -/
theorem C2_format_negotiation_witness :
    choosePreferredFormat [ImgFormat.avif, ImgFormat.webp] ImgFormat.jpeg = ImgFormat.avif ∧
    choosePreferredFormat [ImgFormat.webp] ImgFormat.jpeg = ImgFormat.webp ∧
    choosePreferredFormat [] ImgFormat.png = ImgFormat.png ∧
    resolveFormat ReqFormat.png [ImgFormat.avif] ImgFormat.jpeg = ImgFormat.png :=
  ⟨(C2_format_negotiation [ImgFormat.avif, ImgFormat.webp] ImgFormat.jpeg ReqFormat.auto).2.1
      (by decide),
   (C2_format_negotiation [ImgFormat.webp] ImgFormat.jpeg ReqFormat.auto).2.2.1
      (by decide) (by decide),
   (C2_format_negotiation [] ImgFormat.png ReqFormat.auto).2.2.2.1 (by decide) (by decide),
   (C2_format_negotiation [ImgFormat.avif] ImgFormat.jpeg ReqFormat.png).2.2.2.2
      ImgFormat.png rfl⟩

/-! ## Claims C3, C4 — determinism of transform and of the cache key -/

/-- Inversion of a successful `transform`: the produced image's output
format, cache key, and bytes are the engine's pure computation on the
decoded original and the request. -/
theorem transform_ok_inv {o : OriginalImage} {r : TransformRequest} {t : TransformedImage}
    (h : transform o r = .ok t) :
    ∃ src img, decode o.bytes = some (src, img) ∧
      t.outputFormat = resolveFormat r.format r.acceptCapabilities src ∧
      t.cacheKey = makeCacheKey r.objectKey r.width r.height t.outputFormat
        (r.quality.getD (defaultQuality t.outputFormat)) := by
  unfold transform at h
  cases hd : decode o.bytes with
  | none => rw [hd] at h; exact absurd h (by simp)
  | some p =>
    obtain ⟨src, img⟩ := p
    rw [hd] at h
    simp only [Except.ok.injEq] at h
    exact ⟨src, img, rfl, by rw [← h], by rw [← h]⟩

/-- The Cache Writer only writes the transformed tier: the originals and
the write-failure mode are untouched. -/
theorem maybeStore_preserves (t : TransformedImage) (cfg : Config) (st : Store) :
    (maybeStore t cfg st).originals = st.originals ∧
    (maybeStore t cfg st).putFails = st.putFails := by
  cases hs : cfg.storeTransformed <;> cases hp : st.putFails <;>
    simp [maybeStore, putTransformed, hs, hp]

/-- The orchestrator changes neither the originals tier nor the
write-failure mode of the store: only the transformed tier is written. -/
theorem runPipeline_preserves (cfg : Config) (st : Store) (req : TransformRequest) :
    ((runPipeline cfg st req).2.1).originals = st.originals ∧
    ((runPipeline cfg st req).2.1).putFails = st.putFails := by
  unfold runPipeline
  cases fetchOriginal st req.objectKey with
  | none => exact ⟨rfl, rfl⟩
  | some bytes =>
    simp only
    split
    · exact ⟨rfl, rfl⟩
    · cases transform ⟨bytes, ""⟩ req with
      | error e => exact ⟨rfl, rfl⟩
      | ok t => exact maybeStore_preserves t cfg st

/-- The response component of the pipeline depends only on the originals
tier of the store (and the configuration and request). -/
theorem runPipeline_response_congr (cfg : Config) (req : TransformRequest)
    {st1 st2 : Store} (h : st1.originals = st2.originals) :
    (runPipeline cfg st1 req).1 = (runPipeline cfg st2 req).1 := by
  unfold runPipeline fetchOriginal
  rw [h]
  cases st2.originals.lookup req.objectKey with
  | none => rfl
  | some bytes =>
    simp only
    split
    · rfl
    · cases transform ⟨bytes, ""⟩ req <;> rfl

/-- C3: the Transformation Engine is a pure function of the original
bytes and the request — byte-identical originals under identical request
parameters transform to identical results — and consequently a repeated
invocation of the whole miss pipeline (the second one running on the
store state left by the first) responds byte-identically. -/
theorem C3_transform_deterministic (o1 o2 : OriginalImage) (req : TransformRequest)
    (hb : o1.bytes = o2.bytes) :
    transform o1 req = transform o2 req ∧
    ∀ cfg st, (runPipeline cfg ((runPipeline cfg st req).2.1) req).1 =
      (runPipeline cfg st req).1 := by
  constructor
  · unfold transform; rw [hb]
  · intro cfg st
    exact runPipeline_response_congr cfg req (runPipeline_preserves cfg st req).1

/-- Instantiation of C3: two originals with identical bytes (differing in
declared content type) transform identically, and rerunning the pipeline
on the post-write store answers identically. -/
theorem C3_transform_deterministic_witness :
    transform ⟨[0, 1, 1, 50], "image/jpeg"⟩ reqEx = transform origEx reqEx ∧
    (runPipeline cfgEx ((runPipeline cfgEx stEx reqEx).2.1) reqEx).1 =
      (runPipeline cfgEx stEx reqEx).1 :=
  ⟨(C3_transform_deterministic ⟨[0, 1, 1, 50], "image/jpeg"⟩ origEx reqEx rfl).1,
   (C3_transform_deterministic origEx origEx reqEx rfl).2 cfgEx stEx⟩

/-- C4: the cache key of a transformed image is the deterministic
function `makeCacheKey` of exactly the tuple
`(objectKey, width, height, resolvedFormat, quality)`; any two requests
agreeing on that tuple — in whatever order they arrive, and whatever
their other fields such as the capability hint — get equal cache keys. -/
theorem C4_cache_key_deterministic (r1 r2 : TransformRequest) (o1 o2 : OriginalImage)
    (t1 t2 : TransformedImage)
    (h1 : transform o1 r1 = .ok t1) (h2 : transform o2 r2 = .ok t2)
    (hk : r1.objectKey = r2.objectKey) (hw : r1.width = r2.width)
    (hh : r1.height = r2.height) (hf : t1.outputFormat = t2.outputFormat)
    (hq : r1.quality.getD (defaultQuality t1.outputFormat) =
          r2.quality.getD (defaultQuality t2.outputFormat)) :
    t1.cacheKey = makeCacheKey r1.objectKey r1.width r1.height t1.outputFormat
      (r1.quality.getD (defaultQuality t1.outputFormat)) ∧
    t1.cacheKey = t2.cacheKey := by
  obtain ⟨s1, i1, -, -, hkey1⟩ := transform_ok_inv h1
  obtain ⟨s2, i2, -, -, hkey2⟩ := transform_ok_inv h2
  refine ⟨hkey1, ?_⟩
  rw [hkey1, hkey2, hk, hw, hh, hq, hf]

/-- Instantiation of C4: two requests with the same
`(objectKey, width, height, resolvedFormat, quality)` tuple but different
capability hints produce the same cache key, the `makeCacheKey` of the
tuple. -/
theorem C4_cache_key_deterministic_witness :
    tJpegEx.cacheKey = makeCacheKey "k" (some 2) none ImgFormat.jpeg 50 ∧
    tJpegEx.cacheKey = tJpegEx.cacheKey :=
  C4_cache_key_deterministic reqJ1Ex reqJ2Ex origWideEx origWideEx tJpegEx tJpegEx
    rfl rfl rfl rfl rfl rfl rfl

/-! ## Claim C5 — validation -/

/-- The boolean dimension check fails exactly on the claim's dimension
violation. -/
theorem validDim_false_iff (v : Option String) :
    validDim v = false ↔ dimViolation v := by
  cases v with
  | none => simp [validDim, dimViolation]
  | some s =>
    cases hp : parseNat s with
    | none => simp [validDim, hp, dimViolation]
    | some n =>
      constructor
      · intro h
        refine ⟨s, rfl, ?_⟩
        rintro ⟨m, hm, h1, h2⟩
        rw [hp] at hm
        obtain rfl : n = m := Option.some.inj hm
        simp only [validDim, hp, Bool.and_eq_false_iff, decide_eq_false_iff_not] at h
        omega
      · rintro ⟨s', hs', hno⟩
        obtain rfl : s = s' := Option.some.inj hs'
        simp only [validDim, hp, Bool.and_eq_false_iff, decide_eq_false_iff_not]
        by_contra hb
        push_neg at hb
        exact hno ⟨n, hp, hb.1, hb.2⟩

/-- The boolean quality check fails exactly on the claim's quality
violation. -/
theorem validQuality_false_iff (v : Option String) :
    validQuality v = false ↔ qualityViolation v := by
  cases v with
  | none => simp [validQuality, qualityViolation]
  | some s =>
    cases hp : parseNat s with
    | none => simp [validQuality, hp, qualityViolation]
    | some n =>
      constructor
      · intro h
        refine ⟨s, rfl, ?_⟩
        rintro ⟨m, hm, h1, h2⟩
        rw [hp] at hm
        obtain rfl : n = m := Option.some.inj hm
        simp only [validQuality, hp, Bool.and_eq_false_iff, decide_eq_false_iff_not] at h
        omega
      · rintro ⟨s', hs', hno⟩
        obtain rfl : s = s' := Option.some.inj hs'
        simp only [validQuality, hp, Bool.and_eq_false_iff, decide_eq_false_iff_not]
        by_contra hb
        push_neg at hb
        exact hno ⟨n, hp, hb.1, hb.2⟩

/-- The boolean format check fails exactly on the claim's format
violation. -/
theorem validFormat_false_iff (v : Option String) :
    validFormat v = false ↔ formatViolation v := by
  cases v with
  | none => simp [validFormat, formatViolation]
  | some s =>
    cases hp : parseFormat s with
    | none => simp [validFormat, hp, formatViolation]
    | some f => simp [validFormat, hp, formatViolation]

/-- C5: `validate` rejects exactly when `width` or `height` is present
and not an integer in `[1, 9999]`, or `quality` is present and not an
integer in `[1, 100]`, or `format` is present and not one of the
enumerated values case-insensitively; the boundary values `width = 0`,
`width = 10000`, `quality = 0`, `quality = 101` are each rejected, a
rejection happens before any I/O (empty event trace, untouched store),
and unknown parameters are ignored and never cause rejection. -/
theorem C5_validator (k : String) (caps : List ImgFormat)
    (raw : List (String × String)) (cfg : Config) (st : Store) :
    ((∃ e, validate k caps raw = .error e) ↔
      (dimViolation (raw.lookup "width") ∨ dimViolation (raw.lookup "height") ∨
       qualityViolation (raw.lookup "quality") ∨
       formatViolation (raw.lookup "format"))) ∧
    validate k caps [("width", "0")] = .error .badWidth ∧
    validate k caps [("width", "10000")] = .error .badWidth ∧
    validate k caps [("quality", "0")] = .error .badQuality ∧
    validate k caps [("quality", "101")] = .error .badQuality ∧
    (∀ p v, p ∉ ["width", "height", "quality", "format"] →
      validate k caps ((p, v) :: raw) = validate k caps raw) ∧
    (∀ e, validate k caps raw = .error e →
      handleRaw cfg st k caps raw = (.failure .validation 400, st, [])) := by
  refine ⟨?_, rfl, rfl, rfl, rfl, ?_, ?_⟩
  · rw [← validDim_false_iff, ← validDim_false_iff, ← validQuality_false_iff,
      ← validFormat_false_iff]
    cases hw : validDim (raw.lookup "width") <;>
      cases hh : validDim (raw.lookup "height") <;>
        cases hq : validQuality (raw.lookup "quality") <;>
          cases hf : validFormat (raw.lookup "format") <;>
            simp [validate, hw, hh, hq, hf]
  · intro p v hp
    have key : ∀ name : String, name ∈ ["width", "height", "quality", "format"] →
        ((p, v) :: raw).lookup name = raw.lookup name := by
      intro name hname
      have hne : (name == p) = false := by
        simp only [beq_eq_false_iff_ne]
        intro hc
        rw [← hc] at hp
        exact hp hname
      simp [List.lookup, hne]
    simp only [validate, key "width" (by simp), key "height" (by simp),
      key "quality" (by simp), key "format" (by simp)]
  · intro e he
    unfold handleRaw
    rw [he]
    rfl

/-- Instantiation of C5: an unknown parameter changes nothing, and the
out-of-bounds `width = 0` is answered 400 with no event and no store
change. -/
theorem C5_validator_witness :
    validate "k" [] [("foo", "bar")] = validate "k" [] [] ∧
    handleRaw cfgEx stEx "k" [] [("width", "0")] =
      (.failure .validation 400, stEx, []) :=
  ⟨(C5_validator "k" [] [] cfgEx stEx).2.2.2.2.2.1 "foo" "bar" (by decide),
   (C5_validator "k" [] [("width", "0")] cfgEx stEx).2.2.2.2.2.2 .badWidth
     (C5_validator "k" [] [("width", "0")] cfgEx stEx).2.1⟩

/-! ## Claim C6 — size limit enforced before decode -/

/-- C6: when the fetched original exceeds the configured maximum size,
the pipeline answers `PayloadTooLarge` with status 413, with no decode
event, no cache-write event, and the store untouched. -/
theorem C6_payload_too_large (cfg : Config) (st : Store) (req : TransformRequest)
    (bytes : List Nat) (hf : fetchOriginal st req.objectKey = some bytes)
    (hs : cfg.maxImageSize < bytes.length) :
    runPipeline cfg st req =
      (.failure .payloadTooLarge 413, st, [Event.originFetch]) ∧
    Event.decodeStart ∉ (runPipeline cfg st req).2.2 ∧
    Event.cacheWrite ∉ (runPipeline cfg st req).2.2 ∧
    (runPipeline cfg st req).2.1 = st := by
  have h1 : runPipeline cfg st req =
      (.failure .payloadTooLarge 413, st, [Event.originFetch]) := by
    unfold runPipeline
    rw [hf]
    simp only [if_pos hs]
    rfl
  refine ⟨h1, ?_, ?_, ?_⟩ <;> rw [h1] <;> simp

/-- Instantiation of C6: a 4-byte original against a 2-byte bound is
rejected 413 with no decode, no cache write, no store change. -/
theorem C6_payload_too_large_witness :
    runPipeline cfgSmallEx stEx reqEx =
      (.failure .payloadTooLarge 413, stEx, [Event.originFetch]) ∧
    Event.decodeStart ∉ (runPipeline cfgSmallEx stEx reqEx).2.2 ∧
    Event.cacheWrite ∉ (runPipeline cfgSmallEx stEx reqEx).2.2 ∧
    (runPipeline cfgSmallEx stEx reqEx).2.1 = stEx :=
  C6_payload_too_large cfgSmallEx stEx reqEx [0, 1, 1, 50] rfl (by decide)

/-! ## Claim C7 — cache write is best-effort -/

/-- C7: the Cache Writer never aborts the response path: with persistent
caching disabled it is a no-op on the store; the response is the same
whether or not the underlying put fails; and on a failing put the request
still ends in `Responded(success)` carrying the transformed image. -/
theorem C7_cache_write_best_effort (cfg : Config) (st : Store)
    (req : TransformRequest) (t : TransformedImage) :
    (cfg.storeTransformed = false → maybeStore t cfg st = st) ∧
    (runPipeline cfg { st with putFails := true } req).1 =
      (runPipeline cfg { st with putFails := false } req).1 ∧
    (∀ o tr, fetchOriginal st req.objectKey = some o →
      o.length ≤ cfg.maxImageSize → transform ⟨o, ""⟩ req = .ok tr →
      (runPipeline cfg { st with putFails := true } req).1 =
        .success (compose tr req cfg)) := by
  refine ⟨?_, ?_, ?_⟩
  · intro hoff
    unfold maybeStore
    rw [hoff]
    simp
  · exact runPipeline_response_congr cfg req rfl
  · intro o tr hfetch hsize htr
    have hfetch' : fetchOriginal { st with putFails := true } req.objectKey = some o :=
      hfetch
    unfold runPipeline
    rw [hfetch']
    simp only [if_neg (by omega : ¬ o.length > cfg.maxImageSize)]
    rw [htr]

/-- Instantiation of C7: with caching disabled the store is untouched,
and with a failing put the pipeline still responds success with the
transformed image. -/
theorem C7_cache_write_best_effort_witness :
    maybeStore tEx cfgOffEx stEx = stEx ∧
    (runPipeline cfgOffEx { stEx with putFails := true } reqEx).1 =
      .success (compose tEx reqEx cfgOffEx) :=
  ⟨(C7_cache_write_best_effort cfgOffEx stEx reqEx tEx).1 rfl,
   (C7_cache_write_best_effort cfgOffEx stEx reqEx tEx).2.2 [0, 1, 1, 50] tEx
     rfl (by decide) rfl⟩

/-! ## Claim C8 — response headers -/

/-- C8: a successful response carries the resolved format's MIME type as
`content-type`, a `cache-control` directive with the configured
`max-age`, the diagnostic header `x-aws-image-optimization: v1.0`, an
`etag` derived from the content hash of the transformed bytes, and
`vary: accept` exactly when the request used `format = auto`; the body
is the transformed bytes. -/
theorem C8_response_headers (t : TransformedImage) (req : TransformRequest)
    (cfg : Config) :
    (compose t req cfg).headers.lookup "content-type" =
      some (mimeType t.outputFormat) ∧
    (compose t req cfg).headers.lookup "cache-control" =
      some ("public, max-age=" ++ toString cfg.cacheMaxAgeSeconds) ∧
    (compose t req cfg).headers.lookup "x-aws-image-optimization" = some "v1.0" ∧
    (compose t req cfg).headers.lookup "etag" =
      some (toString (contentHash t.bytes)) ∧
    ((compose t req cfg).headers.lookup "vary" = some "accept" ↔
      req.format = ReqFormat.auto) ∧
    (compose t req cfg).status = 200 ∧
    (compose t req cfg).body = t.bytes := by
  cases hr : req.format <;> simp [compose, hr, List.lookup]

/-! ## Claim C9 — getOptimizedImageUrl null and pass-through behaviour -/

/-- C9 as stated is false: the JS guard `if (!imageUrl) return null` also
fires on the empty string, which is falsy but neither `null` nor
`undefined` — so "returns null exactly when the input is null or
undefined" fails at the input `""`. -/
theorem C9_counterexample :
    ¬ (∀ (url : Option String) (w : Option Nat) (q : Nat) (f : ReqFormat),
        getOptimizedImageUrl url w q f = JsResult.ret none ↔ url = none) := by
  intro hclaim
  have h := (hclaim (some "") (some 500) 85 ReqFormat.auto).mp rfl
  exact Option.noConfusion h

/-- C9 amended: `getOptimizedImageUrl` returns null exactly when its
input is null, undefined, or the empty string; a URL starting with `/` or
not containing `media.dirtyvocal.com` is returned unchanged; and a
`media.dirtyvocal.com` URL whose path neither contains `/images/` nor
ends in an image extension (case-insensitive) is returned unchanged, with
no transformation parameters added. -/
theorem C9_null_and_passthrough (url : Option String) (w : Option Nat)
    (q : Nat) (f : ReqFormat) :
    (getOptimizedImageUrl url w q f = JsResult.ret none ↔
      url = none ∨ url = some "") ∧
    (∀ s, url = some s → s ≠ "" →
      (strStartsWith s "/" = true ∨ strContains s "media.dirtyvocal.com" = false) →
      getOptimizedImageUrl url w q f = JsResult.ret (some s)) ∧
    (∀ s p, url = some s → s ≠ "" → strStartsWith s "/" = false →
      strContains s "media.dirtyvocal.com" = true → urlPathname s = some p →
      strContains p "/images/" = false → hasImageExtension p = false →
      getOptimizedImageUrl url w q f = JsResult.ret (some s)) := by
  refine ⟨?_, ?_, ?_⟩
  · cases url with
    | none => simp [getOptimizedImageUrl]
    | some s =>
      simp only [getOptimizedImageUrl, Option.some.injEq]
      by_cases he : s = ""
      · simp [he]
      · rw [if_neg he]
        split
        · simp [he]
        · split
          · simp [he]
          · cases urlPathname s with
            | none => simp [he]
            | some path =>
              simp only
              split <;> simp [he]
  · rintro s rfl hne hor
    rcases hor with hst | hnc
    · simp [getOptimizedImageUrl, hne, hst]
    · simp only [getOptimizedImageUrl]
      rw [if_neg hne]
      split
      · rfl
      · rw [if_pos (by simp [hnc])]
  · rintro s p rfl hne hst hc hpath himg hext
    simp only [getOptimizedImageUrl]
    rw [if_neg hne, if_neg (by simp [hst]), if_neg (by simp [hc]), hpath]
    simp only
    rw [if_pos (by simp [himg, hext] :
      (!strContains p "/images/" && !hasImageExtension p) = true)]

/-- Instantiation of the amended C9: a relative placeholder URL, an
external URL, and a `media.dirtyvocal.com` audio URL all pass through
unchanged. -/
theorem C9_null_and_passthrough_witness :
    getOptimizedImageUrl (some "/images/placeholder/user.jpg") none 85 ReqFormat.auto =
      JsResult.ret (some "/images/placeholder/user.jpg") ∧
    getOptimizedImageUrl (some "https://lh3.googleusercontent.com/a/photo.bmp") none 85
        ReqFormat.auto =
      JsResult.ret (some "https://lh3.googleusercontent.com/a/photo.bmp") ∧
    getOptimizedImageUrl (some "https://media.dirtyvocal.com/u1/audio/track.mp3") none 85
        ReqFormat.auto =
      JsResult.ret (some "https://media.dirtyvocal.com/u1/audio/track.mp3") :=
  ⟨(C9_null_and_passthrough (some "/images/placeholder/user.jpg") none 85
      ReqFormat.auto).2.1 "/images/placeholder/user.jpg" rfl (by decide)
      (Or.inl (by decide)),
   (C9_null_and_passthrough (some "https://lh3.googleusercontent.com/a/photo.bmp") none 85
      ReqFormat.auto).2.1 "https://lh3.googleusercontent.com/a/photo.bmp" rfl (by decide)
      (Or.inr (by decide)),
   (C9_null_and_passthrough (some "https://media.dirtyvocal.com/u1/audio/track.mp3") none 85
      ReqFormat.auto).2.2 "https://media.dirtyvocal.com/u1/audio/track.mp3"
      "/u1/audio/track.mp3"
      rfl (by decide) (by decide) (by decide) (by decide) (by decide) (by decide)⟩

/-! ## Claim C10 — zero width is treated as absent -/

/-- C10: `getContextualImageUrl` with `customWidth = 0` equals the call
with `customWidth` omitted (0 is falsy, so the context default from
`IMAGE_SIZES` is used), and `getOptimizedImageUrl` with `width = 0` or
`width` omitted emits no `width` parameter while always emitting exactly
the `format` and `quality` parameters. -/
theorem C10_zero_width_absent (url : Option String) (ctx : DisplayContext)
    (q : Nat) (f : ReqFormat) :
    getContextualImageUrl url ctx (some 0) = getContextualImageUrl url ctx none ∧
    getOptimizedImageUrl url (some 0) q f = getOptimizedImageUrl url none q f ∧
    buildParams (some 0) q f = [("format", f.name), ("quality", toString q)] ∧
    buildParams none q f = [("format", f.name), ("quality", toString q)] := by
  have hb : buildParams (some 0) q f = buildParams none q f := by
    simp [buildParams]
  refine ⟨rfl, ?_, by simp [buildParams], by simp [buildParams]⟩
  unfold getOptimizedImageUrl
  rw [hb]

end ImageOpt
